import Mathlib

/-!
Verification of the obsidian-title-generator core against its specification.

The TypeScript sources are shallowly embedded: strings are `String`/`List Char`,
JS numbers used as counters/timestamps are `Nat`/`Int`, similarity scores are `ℚ`,
fallible calls return `Except`, and the network is an explicit oracle argument.
Unicode case mapping and UTF-16 lengths are modelled on the code points that the
analysed inputs use (ASCII), which coincides with the JS semantics there.
-/

namespace TitleGen

/-- The character class of the JS regex `\s` (and of `String.prototype.trim`):
ASCII whitespace plus the Unicode space separators JS includes. -/
def jsWS (c : Char) : Bool :=
  c = ' ' || c = '\t' || c = '\n' || c = '\r' || c.toNat = 11 || c.toNat = 12 ||
  c.toNat = 160 || c.toNat = 5760 || (8192 ≤ c.toNat && c.toNat ≤ 8202) ||
  c.toNat = 8232 || c.toNat = 8233 || c.toNat = 8239 || c.toNat = 8287 ||
  c.toNat = 12288 || c.toNat = 65279

/-- JS `s.trimStart()` on the character list. -/
def trimLeft (l : List Char) : List Char := l.dropWhile jsWS

/-- JS `s.trimEnd()` on the character list. -/
def trimRight (l : List Char) : List Char := (l.reverse.dropWhile jsWS).reverse

/-- JS `s.trim()` on the character list. -/
def jsTrim (l : List Char) : List Char := trimRight (trimLeft l)

/-- JS `s.trim()` on strings. -/
def jsTrimStr (s : String) : String := ⟨jsTrim s.data⟩

/-- One pass of `replace(/\s+/g, ' ')`: the flag records whether we are inside a
whitespace run that has already emitted its single `' '`. -/
def collapseWSAux : Bool → List Char → List Char
  | _, [] => []
  | inRun, c :: rest =>
    if jsWS c then
      if inRun then collapseWSAux true rest
      else ' ' :: collapseWSAux true rest
    else c :: collapseWSAux false rest

/-- JS `s.replace(/\s+/g, ' ')`: every maximal whitespace run becomes one space. -/
def collapseWS (l : List Char) : List Char := collapseWSAux false l

/-- The character class of the regex `[<>:"\/\\|?*\x00-\x1F]` in `sanitizeFilename`
(`src/utils.ts`). -/
def forbiddenChar (c : Char) : Bool :=
  c = '<' || c = '>' || c = ':' || c = '"' || c = '/' || c = '\\' || c = '|' ||
  c = '?' || c = '*' || c.toNat ≤ 31

/-- The character class `[ .]` used by `sanitizeFilename`'s edge-stripping regex. -/
def spaceDot (c : Char) : Bool := c = ' ' || c = '.'

/-- JS `s.replace(/^[ .]+|[ .]+$/g, '')`: strip the leading and the trailing run
of spaces and dots. -/
def stripDotsSpaces (l : List Char) : List Char :=
  ((l.dropWhile spaceDot).reverse.dropWhile spaceDot).reverse

/-- The three rewriting steps of `sanitizeFilename` (`src/utils.ts:10`), before
the emptiness fallback. -/
def sanitizeChars (l : List Char) : List Char :=
  stripDotsSpaces (jsTrim (collapseWS (l.filter (fun c => !forbiddenChar c))))

/-- `sanitizeFilename` from `src/utils.ts:10`: remove forbidden characters,
collapse whitespace and trim, strip edge spaces/dots, fall back to "Untitled". -/
def sanitizeFilename (s : String) : String :=
  let safe := sanitizeChars s.data
  if safe.length > 0 then ⟨safe⟩ else "Untitled"

/-- JS `s.lastIndexOf(c)` restricted to single characters, as an optional index
(the JS `-1` becomes `none`). -/
def lastIndexOfChar (c : Char) : List Char → Option Nat
  | [] => none
  | a :: rest =>
    match lastIndexOfChar c rest with
    | some i => some (i + 1)
    | none => if a = c then some 0 else none

/-- The over-length branch of `truncateTitle` (`src/utils.ts:25`): slice to the
limit, cut at the last space when its index is positive, then trim. -/
def truncateCore (l : List Char) (maxLength : Nat) : List Char :=
  let truncated := l.take maxLength
  let truncated :=
    match lastIndexOfChar ' ' truncated with
    | some lastSpace => if 0 < lastSpace then truncated.take lastSpace else truncated
    | none => truncated
  jsTrim truncated

/-- `truncateTitle` from `src/utils.ts:25`. -/
def truncateTitle (s : String) (maxLength : Nat) : String :=
  if s.data.length ≤ maxLength then s
  else ⟨truncateCore s.data maxLength⟩

/-- The character class of the JS regex `\w`. -/
def wordChar (c : Char) : Bool :=
  ('a' ≤ c && c ≤ 'z') || ('A' ≤ c && c ≤ 'Z') || ('0' ≤ c && c ≤ '9') || c = '_'

/-- `normalizeTitleForComparison` from `src/utils.ts:162`: lowercase, drop
`[^\w\s]`, collapse whitespace, trim. -/
def normalizeTitleForComparison (s : String) : String :=
  ⟨jsTrim (collapseWS ((s.data.map Char.toLower).filter
    (fun c => wordChar c || jsWS c)))⟩

/-- The DP table of `levenshteinDistance` (`src/utils.ts:195`), as the source's
recurrence on prefix lengths, with explicit recursion fuel (first argument):
`matrix[i][j]` is the distance between the first `i` characters of `s` and the
first `j` characters of `t`. -/
def levMatrixF (s t : List Char) : Nat → Nat → Nat → Nat
  | _, 0, j => j
  | _, i + 1, 0 => i + 1
  | 0, _ + 1, _ + 1 => 0
  | fuel + 1, i + 1, j + 1 =>
    let cost := if s.getD i ' ' = t.getD j ' ' then 0 else 1
    min (min (levMatrixF s t fuel i (j + 1) + 1) (levMatrixF s t fuel (i + 1) j + 1))
      (levMatrixF s t fuel i j + cost)

/-- The DP entry `matrix[i][j]`; the fuel `i + j` makes the recursion structural
and is exactly enough, since every recursive step decreases `i + j`. -/
def levMatrix (s t : List Char) (i j : Nat) : Nat := levMatrixF s t (i + j) i j

/-- `levenshteinDistance` from `src/utils.ts:195`: the bottom-right entry of the
DP table. -/
def levenshteinDistance (a b : String) : Nat :=
  levMatrix a.data b.data a.data.length b.data.length

/-- `calculateTitleSimilarity` from `src/utils.ts:176`; the JS float arithmetic
is carried out exactly in `ℚ`. -/
def calculateTitleSimilarity (title1 title2 : String) : ℚ :=
  let normalized1 := normalizeTitleForComparison title1
  let normalized2 := normalizeTitleForComparison title2
  if normalized1 = normalized2 then 1
  else if normalized1.data.length = 0 ∨ normalized2.data.length = 0 then 0
  else
    1 - (levenshteinDistance normalized1 normalized2 : ℚ) /
      ((max normalized1.data.length normalized2.data.length : Nat) : ℚ)

/-- Modelled from the spec: the `TitleMatch` record of §3 (its TypeScript
declaration lives in a `types.ts`/`constants.ts` revision that is not under
`src/`; the fields are those produced by `detectTitleInContent` and the spec:
character offsets, matched line, similarity in `[0,1]`, 1-based line number,
header flag, header level (0 when not a header)). -/
structure TitleMatch where
  startIndex : Nat
  endIndex : Nat
  matchedText : String
  similarity : ℚ
  lineNumber : Nat
  isMarkdownHeader : Bool
  headerLevel : Nat
deriving DecidableEq, Repr

/-- Stable insertion of a match into a list sorted by descending `startIndex`;
`insertDescByStart` after folding reproduces the source's stable
`sort((a, b) => b.startIndex - a.startIndex)`. -/
def insertDescByStart (m : TitleMatch) : List TitleMatch → List TitleMatch
  | [] => [m]
  | x :: xs =>
    if x.startIndex < m.startIndex then m :: x :: xs
    else x :: insertDescByStart m xs

/-- Stable sort by descending `startIndex`, as the source's comparator does. -/
def sortDescByStart (ms : List TitleMatch) : List TitleMatch :=
  ms.foldr insertDescByStart []

/-- JS `content.split('\n')` on the character list. -/
def splitNL : List Char → List (List Char)
  | [] => [[]]
  | c :: rest =>
    let r := splitNL rest
    if c = '\n' then [] :: r
    else
      match r with
      | h :: t => (c :: h) :: t
      | [] => [[c]]

/-- JS `lines.join('\n')` on character lists. -/
def joinNL : List (List Char) → List Char
  | [] => []
  | [x] => x
  | x :: y :: xs => x ++ '\n' :: joinNL (y :: xs)

/-- Fueled scan for `collapseNewlineRuns`; `fuel = l.length` suffices because
every step consumes at least one character. -/
def collapseNewlineRunsF (k : Nat) : Nat → List Char → List Char
  | 0, l => l
  | _ + 1, [] => []
  | fuel + 1, c :: rest =>
    if c = '\n' then
      let n := (rest.takeWhile (fun d => d = '\n')).length + 1
      let rest' := rest.dropWhile (fun d => d = '\n')
      (if k + 1 ≤ n then List.replicate k '\n' else List.replicate n '\n') ++
        collapseNewlineRunsF k fuel rest'
    else c :: collapseNewlineRunsF k fuel rest

/-- JS `new RegExp("\n{k+1,}", 'g')` replacement with `'\n'.repeat(k)`: every
run of more than `k` newlines is shortened to exactly `k`. -/
def collapseNewlineRuns (k : Nat) (l : List Char) : List Char :=
  collapseNewlineRunsF k l.length l

/-- One splice step of the removal loop in `removeDuplicatesFromContent`: the
line `match.lineNumber - 1` is removed when the index is in range. -/
def spliceMatch (ls : List (List Char)) (m : TitleMatch) : List (List Char) :=
  let lineIndex : Int := (m.lineNumber : Int) - 1
  if 0 ≤ lineIndex ∧ lineIndex < (ls.length : Int) then ls.eraseIdx lineIndex.toNat
  else ls

/-- `removeDuplicatesFromContent` from `src/utils.ts:292`.  The constant
`DUPLICATE_CONFIG.MAX_CONSECUTIVE_EMPTY_LINES` comes from a `constants.ts` that
is not under `src/`; the spec (§4.5) only calls it "a configured maximum", so it
is taken here as the parameter `maxEmptyLines`. -/
def removeDuplicatesFromContent (maxEmptyLines : Nat) (content : String)
    (ms : List TitleMatch) : String :=
  if ms.length = 0 then content
  else
    let sorted := sortDescByStart ms
    let lines := splitNL content.data
    let lines := sorted.foldl spliceMatch lines
    let modified := joinNL lines
    let modified := modified.dropWhile (fun c => c = '\n')
    ⟨collapseNewlineRuns maxEmptyLines modified⟩

/-- Split a character list at the first occurrence of the (non-empty) pattern:
`splitFirst pat l = some (pre, post)` with `l = pre ++ pat ++ post` and `pre`
minimal; `none` when the pattern does not occur. -/
def splitFirst (pat : List Char) : List Char → Option (List Char × List Char)
  | [] => none
  | c :: rest =>
    if pat.isPrefixOf (c :: rest) then some ([], (c :: rest).drop pat.length)
    else
      match splitFirst pat rest with
      | some (pre, post) => some (c :: pre, post)
      | none => none

/-- JS `s.replace(pat, repl)` with a string pattern: replace only the first
occurrence (replacement-string `$` patterns are not modelled; the replacements
used by the plugin are numbers and titles). -/
def replaceFirst (s pat repl : String) : String :=
  match splitFirst pat.data s.data with
  | some (pre, post) => ⟨pre ++ repl.data ++ post⟩
  | none => s

/-- The first match of the lazy regex `/<think>([\s\S]*?)<\/think>/`: text before
the block, the captured inner text, and the text after it. -/
def extractThink (l : List Char) : Option (List Char × List Char × List Char) :=
  match splitFirst "<think>".data l with
  | none => none
  | some (pre, rest) =>
    match splitFirst "</think>".data rest with
    | none => none
    | some (inner, post) => some (pre, inner, post)

/-- JS `s.replace(/<think>[\s\S]*?<\/think>/g, repl)`: every lazily-matched
think block is replaced (fuel bounds the scan; `fuel = l.length` suffices). -/
def replaceThinkAll (repl : List Char) : Nat → List Char → List Char
  | 0, l => l
  | fuel + 1, l =>
    match extractThink l with
    | none => l
    | some (pre, _, post) => pre ++ repl ++ replaceThinkAll repl fuel post

/-- Case-insensitive prefix test (the regexes carry the `i` flag). -/
def startsWithCI (pat l : List Char) : Bool :=
  (pat.map Char.toLower).isPrefixOf (l.map Char.toLower)

/-- The label alternatives of
`/^(Title:|Generated title:|Suggested title:|The title:|A title:|Here's the title:)\s*/i`
in source order. -/
def labelPrefixes : List String :=
  ["Title:", "Generated title:", "Suggested title:", "The title:", "A title:",
   "Here\x27s the title:"]

/-- JS replacement of the label-prefix regex by `''`: drop the first matching
alternative at the start of the line and the whitespace after it. -/
def stripLabel (l : List Char) : List Char :=
  match labelPrefixes.find? (fun p => startsWithCI p.data l) with
  | some p => (l.drop p.data.length).dropWhile jsWS
  | none => l

/-- JS `s.replace(/\(...\)/g, '')`-style removal for a delimiter pair: each
opener up to the next closer is removed; an opener without a closer stays. -/
def removeDelimBlocks (openChar closeChar : Char) : Nat → List Char → List Char
  | 0, l => l
  | fuel + 1, l =>
    match l with
    | [] => []
    | c :: rest =>
      if c = openChar then
        match splitFirst [closeChar] rest with
        | some (_, post) => removeDelimBlocks openChar closeChar fuel post
        | none => c :: rest
      else c :: removeDelimBlocks openChar closeChar fuel rest

/-- The character class `[-\s]` of the edge-cleanup regexes in
`cleanAIResponse`. -/
def dashWS (c : Char) : Bool := c = '-' || jsWS c

/-- `cleanAIResponse` from `src/unnamed/part_019:350` (the revision whose
`generateTitle` is modelled below), with explicit recursion fuel for the
recursive cleaning of a think block's inner content; `fuel = l.length` is
always sufficient because each nesting level shrinks the text by the two tag
lengths. -/
def cleanAIResponseCore (recur : List Char → List Char) (l : List Char) : List Char :=
  if l.isEmpty then []
  else
    let cleaned := jsTrim l
    let cleaned :=
      match extractThink cleaned with
      | some (_, inner, _) =>
        if inner.isEmpty then cleaned
        else jsTrim (replaceThinkAll (recur (jsTrim inner)) cleaned.length cleaned)
      | none => cleaned
    let cleaned := stripLabel cleaned
    let cleaned := removeDelimBlocks '(' ')' cleaned.length cleaned
    let cleaned := removeDelimBlocks '[' ']' cleaned.length cleaned
    let cleaned := (cleaned.reverse.dropWhile dashWS).reverse
    let cleaned := cleaned.dropWhile dashWS
    let cleaned := cleaned.takeWhile (fun c => !(c = '\n'))
    let cleaned := cleaned.filter (fun c => !(c = '"' || c = '\x27'))
    jsTrim cleaned

/-- The fueled recursion: at each think-block nesting level one unit of fuel is
spent on the recursive call. -/
def cleanAIResponseFuel : Nat → List Char → List Char
  | 0 => cleanAIResponseCore (fun _ => [])
  | fuel + 1 => cleanAIResponseCore (cleanAIResponseFuel fuel)

/-- `AIService.cleanAIResponse` on strings. -/
def cleanAIResponse (s : String) : String :=
  ⟨cleanAIResponseFuel s.data.length s.data⟩

/-- The `AIProvider` union of `src/src/types.ts`. -/
inductive AIProvider where
  | openai
  | anthropic
  | google
  | ollama
  | lmstudio
deriving DecidableEq, Repr

/-- The `CachedModels` interface of `src/src/types.ts`: model list, `Date.now()`
timestamp, optional last error. -/
structure CachedModels where
  models : List String
  lastUpdated : Int
  error : Option String
deriving DecidableEq, Repr

/-- The `TitleGeneratorSettings` interface of `src/src/types.ts`; the two
string-keyed maps become functions on `AIProvider` (absent key = `none` /
`false`). -/
structure TitleGeneratorSettings where
  aiProvider : AIProvider
  openAiApiKey : String
  anthropicApiKey : String
  googleApiKey : String
  ollamaUrl : String
  lmstudioUrl : String
  openAiModel : String
  anthropicModel : String
  googleModel : String
  ollamaModel : String
  lmstudioModel : String
  cachedModels : AIProvider → Option CachedModels
  modelLoadingState : AIProvider → Bool
  lowerCaseTitles : Bool
  removeForbiddenChars : Bool
  customPrompt : String
  temperature : ℚ
  maxTitleLength : Nat
  maxContentLength : Nat
  refinePrompt : String

/-- `AIService.isConfigurationValid` from `src/unnamed/part_019:82`: per
provider, the credential/endpoint must be non-empty after `trim()` and a model
must be selected (JS truthiness of the model string). -/
def isConfigurationValid (s : TitleGeneratorSettings) : Bool :=
  match s.aiProvider with
  | .openai => !(jsTrimStr s.openAiApiKey == "") && !(s.openAiModel == "")
  | .anthropic => !(jsTrimStr s.anthropicApiKey == "") && !(s.anthropicModel == "")
  | .google => !(jsTrimStr s.googleApiKey == "") && !(s.googleModel == "")
  | .ollama => !(jsTrimStr s.ollamaUrl == "") && !(s.ollamaModel == "")
  | .lmstudio => !(jsTrimStr s.lmstudioUrl == "") && !(s.lmstudioModel == "")

/-- JS `noteContent.slice(0, n)` for a non-negative bound. -/
def jsSliceTo (s : String) (n : Nat) : String := ⟨s.data.take n⟩

/-- `AIService.callAI`'s prompt assembly: `` `${prompt}\n\n${content}`.trim() ``. -/
def fullPromptOf (promptArg content : String) : String :=
  jsTrimStr ⟨promptArg.data ++ '\n' :: '\n' :: content.data⟩

/-- The full prompt of the draft call in `generateTitle`: the custom prompt with
the first `{max_length}` replaced, joined with the sliced note content. -/
def initialFullPrompt (s : TitleGeneratorSettings) (noteContent : String) : String :=
  fullPromptOf (replaceFirst s.customPrompt "{max_length}" (toString s.maxTitleLength))
    (jsSliceTo noteContent s.maxContentLength)

/-- The full prompt of the refinement call: the refine prompt with `{max_length}`
and `{title}` substituted, and no additional content. -/
def refineFullPrompt (s : TitleGeneratorSettings) (title : String) : String :=
  fullPromptOf
    (replaceFirst (replaceFirst s.refinePrompt "{max_length}" (toString s.maxTitleLength))
      "{title}" title) ""

/-- The final-processing block of `generateTitle`: optional lowercasing and
optional filename sanitization. -/
def postProcessTitle (s : TitleGeneratorSettings) (title : String) : String :=
  let processed := if s.lowerCaseTitles then ⟨title.data.map Char.toLower⟩ else title
  if s.removeForbiddenChars then sanitizeFilename processed else processed

/-- `AIService.generateTitle` from `src/unnamed/part_019:19`.  The backend is an
oracle from call index and full prompt to either a raised error (the `catch`
path, which returns `''`) or the raw response text.  The first component counts
the generation calls issued. -/
def generateTitle (s : TitleGeneratorSettings) (noteContent : String)
    (backend : Nat → String → Except String String) : Nat × String :=
  if !isConfigurationValid s then (0, "")
  else
    match backend 0 (initialFullPrompt s noteContent) with
    | .error _ => (1, "")
    | .ok raw =>
      let title := cleanAIResponse raw
      if s.maxTitleLength < title.data.length then
        match backend 1 (refineFullPrompt s title) with
        | .error _ => (2, "")
        | .ok raw2 =>
          (2, truncateTitle (postProcessTitle s (cleanAIResponse raw2)) s.maxTitleLength)
      else (1, truncateTitle (postProcessTitle s title) s.maxTitleLength)

/-- `AIService.generateTitle` from `src/src/aiService.ts:19` (the revision
without the validation step and without response cleaning): draft call, at most
one refinement round-trip, post-processing, final safeguard truncation. -/
def generateTitleV1 (s : TitleGeneratorSettings) (noteContent : String)
    (backend : Nat → String → Except String String) : Nat × String :=
  match backend 0 (initialFullPrompt s noteContent) with
  | .error _ => (1, "")
  | .ok title =>
    if s.maxTitleLength < title.data.length then
      match backend 1 (refineFullPrompt s title) with
      | .error _ => (2, "")
      | .ok title2 => (2, truncateTitle (postProcessTitle s title2) s.maxTitleLength)
    else (1, truncateTitle (postProcessTitle s title) s.maxTitleLength)

/-- `ModelService.getFallbackModels` from `src/src/modelService.ts:272`. -/
def getFallbackModels : AIProvider → List String
  | .openai => ["gpt-4o", "gpt-4o-mini", "gpt-4-turbo", "gpt-4", "gpt-3.5-turbo"]
  | .anthropic =>
    ["claude-3-opus-20240229", "claude-3-sonnet-20240229", "claude-3-haiku-20240307"]
  | .google => ["gemini-1.5-pro-latest", "gemini-1.5-flash-latest", "gemini-1.0-pro"]
  | .ollama => ["llama3", "llama2", "mistral", "codellama", "phi3"]
  | .lmstudio => ["llama-3", "mistral-7b", "codellama", "phi-3", "qwen2", "gemma2"]

/-- Overwrite one provider's cache entry in the settings object. -/
def setCachedEntry (s : TitleGeneratorSettings) (p : AIProvider) (e : CachedModels) :
    TitleGeneratorSettings :=
  { s with cachedModels := fun q => if q = p then some e else s.cachedModels q }

/-- `ModelService.cacheModels` from `src/src/modelService.ts:252`: store the list
with the current timestamp (and no error field). -/
def cacheModels (s : TitleGeneratorSettings) (p : AIProvider) (models : List String)
    (now : Int) : TitleGeneratorSettings :=
  setCachedEntry s p ⟨models, now, none⟩

/-- `ModelService.cacheError` from `src/src/modelService.ts:261`: keep the
existing model list and timestamp (empty/zero when absent) and record the error. -/
def cacheError (s : TitleGeneratorSettings) (p : AIProvider) (err : String) :
    TitleGeneratorSettings :=
  setCachedEntry s p
    ⟨(match s.cachedModels p with | some c => c.models | none => []),
     (match s.cachedModels p with | some c => c.lastUpdated | none => 0),
     some err⟩

/-- Set one provider's loading flag in the settings object. -/
def setLoading (s : TitleGeneratorSettings) (p : AIProvider) (b : Bool) :
    TitleGeneratorSettings :=
  { s with modelLoadingState := fun q => if q = p then b else s.modelLoadingState q }

/-- `ModelService.getErrorMessage` restricted to string-typed errors, which it
returns unchanged; the oracle below supplies error messages directly. -/
def getErrorMessage (e : String) : String := e

/-- The freshness guard of `ModelService.getModels`
(`src/src/modelService.ts:28`): updated less than one hour (3600000 ms) ago and
a non-empty model list. -/
def isFreshEntry (c : CachedModels) (now : Int) : Bool :=
  (now - 3600000 < c.lastUpdated) && (0 < c.models.length)

/-- The fallback chain at the end of `getModels`: previously cached non-empty
list, else the hardcoded fallback models. -/
def getModelsFallback (p : AIProvider) (cached : Option CachedModels) : List String :=
  match cached with
  | some c => if 0 < c.models.length then c.models else getFallbackModels p
  | none => getFallbackModels p

/-- The stale path of `getModels`: query; on a non-empty success cache and
return it; on failure record the error; otherwise fall back.  The `Bool` marks
that a network request was issued. -/
def getModelsStale (p : AIProvider) (s : TitleGeneratorSettings) (now : Int)
    (query : Except String (List String)) (cached : Option CachedModels) :
    List String × TitleGeneratorSettings × Bool :=
  match query with
  | .ok models =>
    if 0 < models.length then (models, cacheModels s p models now, true)
    else (getModelsFallback p cached, s, true)
  | .error e => (getModelsFallback p cached, cacheError s p (getErrorMessage e), true)

/-- `ModelService.getModels` from `src/src/modelService.ts:22`.  `now` is
`Date.now()` and `query` the outcome `queryModels` would produce; the last
component records whether that network query was issued. -/
def getModels (p : AIProvider) (s : TitleGeneratorSettings) (now : Int)
    (query : Except String (List String)) : List String × TitleGeneratorSettings × Bool :=
  let cached := s.cachedModels p
  match cached with
  | some c =>
    if isFreshEntry c now then (c.models, s, false)
    else getModelsStale p s now query cached
  | none => getModelsStale p s now query none

/-- `ModelService.refreshModels` from `src/src/modelService.ts:57`: set the
loading flag, query unconditionally, cache the list or record the error and
return the hardcoded fallback, clear the loading flag on every path. -/
def refreshModels (p : AIProvider) (s : TitleGeneratorSettings) (now : Int)
    (query : Except String (List String)) : List String × TitleGeneratorSettings :=
  let s1 := setLoading s p true
  let (result, s2) :=
    match query with
    | .ok models => (models, cacheModels s1 p models now)
    | .error e => (getFallbackModels p, cacheError s1 p (getErrorMessage e))
  (result, setLoading s2 p false)

/-- The configuration defects that `isConfigurationValid` rejects for the
active provider: empty (after `trim()`) credential/endpoint, or no selected
model. -/
def missingConfig (s : TitleGeneratorSettings) : Prop :=
  match s.aiProvider with
  | .openai => jsTrimStr s.openAiApiKey = "" ∨ s.openAiModel = ""
  | .anthropic => jsTrimStr s.anthropicApiKey = "" ∨ s.anthropicModel = ""
  | .google => jsTrimStr s.googleApiKey = "" ∨ s.googleModel = ""
  | .ollama => jsTrimStr s.ollamaUrl = "" ∨ s.ollamaModel = ""
  | .lmstudio => jsTrimStr s.lmstudioUrl = "" ∨ s.lmstudioModel = ""

/-- The failure scenarios of `generateTitle`: validation rejects the settings,
the draft call raises, or the draft succeeds, is over-length after cleaning,
and the refinement call raises. -/
def generationFailure (s : TitleGeneratorSettings) (noteContent : String)
    (backend : Nat → String → Except String String) : Prop :=
  isConfigurationValid s = false
  ∨ (∃ e, backend 0 (initialFullPrompt s noteContent) = .error e)
  ∨ (∃ raw e, backend 0 (initialFullPrompt s noteContent) = .ok raw ∧
      s.maxTitleLength < (cleanAIResponse raw).data.length ∧
      backend 1 (refineFullPrompt s (cleanAIResponse raw)) = .error e)

/-- A concrete settings snapshot used by the closed witness statements: OpenAI
selected with a model but an empty API key, `maxTitleLength = 5`. -/
def sampleSettings : TitleGeneratorSettings where
  aiProvider := .openai
  openAiApiKey := ""
  anthropicApiKey := ""
  googleApiKey := ""
  ollamaUrl := ""
  lmstudioUrl := ""
  openAiModel := "gpt-4o"
  anthropicModel := ""
  googleModel := ""
  ollamaModel := ""
  lmstudioModel := ""
  cachedModels := fun _ => none
  modelLoadingState := fun _ => false
  lowerCaseTitles := false
  removeForbiddenChars := false
  customPrompt := "Give a title of at most {max_length} characters"
  temperature := 0
  maxTitleLength := 5
  maxContentLength := 100
  refinePrompt := "Shorten {title} to {max_length} characters"

/-- `sampleSettings` with the OpenAI cache holding `["a", "b"]` at time 1000. -/
def cachedABState : TitleGeneratorSettings :=
  setCachedEntry sampleSettings .openai ⟨["a", "b"], 1000, none⟩

/-- A backend mock that always returns a fixed over-length (10-character)
string. -/
def overLongMock : Nat → String → String := fun _ _ => "ABCDEFGHIJ"

/-! ## Supporting lemmas -/

theorem length_trimLeft_le (l : List Char) : (trimLeft l).length ≤ l.length :=
  (List.dropWhile_sublist _).length_le

theorem length_trimRight_le (l : List Char) : (trimRight l).length ≤ l.length := by
  unfold trimRight
  rw [List.length_reverse]
  calc (l.reverse.dropWhile jsWS).length ≤ l.reverse.length :=
        (List.dropWhile_sublist _).length_le
    _ = l.length := List.length_reverse l

theorem length_jsTrim_le (l : List Char) : (jsTrim l).length ≤ l.length :=
  le_trans (length_trimRight_le _) (length_trimLeft_le _)

/-! ## Claim theorems -/

/-- C6: the response normalizer maps `"<think>Hello World</think>"` to
`"Hello World"`: a response that is entirely one thinking-delimiter block
normalizes to the cleaned inner content of the block, not to the empty
string. -/
theorem cleanAIResponse_think_wrapped_hello :
    cleanAIResponse "<think>Hello World</think>" = "Hello World" := by decide

theorem length_truncateCore_le (l : List Char) (n : Nat) :
    (truncateCore l n).length ≤ n := by
  simp only [truncateCore]
  refine le_trans (length_jsTrim_le _) ?_
  have htake : (l.take n).length ≤ n := List.length_take_le n l
  cases hfind : lastIndexOfChar ' ' (l.take n) with
  | none => exact htake
  | some i =>
    show (if 0 < i then List.take i (List.take n l) else List.take n l).length ≤ n
    by_cases hi : 0 < i
    · rw [if_pos hi]
      exact le_trans (le_of_eq_of_le (List.length_take i _) (min_le_right _ _)) htake
    · rw [if_neg hi]
      exact htake

/-- C9: `truncateTitle t n` always returns a string of length at most `n`, and
returns `t` unchanged whenever `t` already fits. -/
theorem truncateTitle_length_le (t : String) (n : Nat) :
    (truncateTitle t n).length ≤ n ∧ (t.length ≤ n → truncateTitle t n = t) := by
  constructor
  · show (truncateTitle t n).data.length ≤ n
    unfold truncateTitle
    by_cases h : t.data.length ≤ n
    · rw [if_pos h]
      exact h
    · rw [if_neg h]
      exact length_truncateCore_le t.data n
  · intro h
    unfold truncateTitle
    exact if_pos h

/-- Witness for the C9 theorem at a concrete fitting title. -/
theorem truncateTitle_length_le_witness :
    ("abc" : String).length ≤ 5 ∧ truncateTitle "abc" 5 = "abc" :=
  ⟨by decide, (truncateTitle_length_le "abc" 5).2 (by decide)⟩

/-- C1: against `AIService.generateTitle` of `src/src/aiService.ts:19`, a
backend mock that always returns an over-length title makes the controller
issue exactly 2 generation calls (one draft, one refinement) and return the
hard-truncated post-processed result — never a third call. -/
theorem generateTitleV1_exactly_two_calls (s : TitleGeneratorSettings)
    (note : String) (mock : Nat → String → String)
    (h : ∀ i p, s.maxTitleLength < (mock i p).data.length) :
    generateTitleV1 s note (fun i p => .ok (mock i p)) =
      (2, truncateTitle
        (postProcessTitle s
          (mock 1 (refineFullPrompt s (mock 0 (initialFullPrompt s note)))))
        s.maxTitleLength) := by
  unfold generateTitleV1
  simp only [if_pos (h 0 (initialFullPrompt s note))]

/-- Witness for C1: a mock returning the 10-character string "ABCDEFGHIJ" with
`maxTitleLength = 5` triggers the draft and exactly one refinement. -/
theorem generateTitleV1_exactly_two_calls_witness :
    (∀ i p, sampleSettings.maxTitleLength < (overLongMock i p).data.length) ∧
    generateTitleV1 sampleSettings "note" (fun i p => .ok (overLongMock i p)) =
      (2, truncateTitle
        (postProcessTitle sampleSettings
          (overLongMock 1
            (refineFullPrompt sampleSettings
              (overLongMock 0 (initialFullPrompt sampleSettings "note")))))
        sampleSettings.maxTitleLength) :=
  have h : ∀ i p, sampleSettings.maxTitleLength < (overLongMock i p).data.length :=
    fun _ _ => by
      show sampleSettings.maxTitleLength < ("ABCDEFGHIJ" : String).data.length
      decide
  ⟨h, generateTitleV1_exactly_two_calls sampleSettings "note" overLongMock h⟩

/-- C5: whenever the active backend's required credential/endpoint is empty or
no model is selected, `generateTitle` fails during validation: it returns the
empty string and issues zero backend calls. -/
theorem generateTitle_invalid_config_no_call (s : TitleGeneratorSettings)
    (note : String) (backend : Nat → String → Except String String)
    (h : missingConfig s) :
    generateTitle s note backend = (0, "") := by
  have hvalid : isConfigurationValid s = false := by
    unfold isConfigurationValid
    unfold missingConfig at h
    cases hp : s.aiProvider <;> rw [hp] at h <;>
      rcases h with h | h <;> simp [h]
  unfold generateTitle
  rw [hvalid]
  rfl

/-- Witness for C5: the sample snapshot has an empty OpenAI key, so no call is
made. -/
theorem generateTitle_invalid_config_no_call_witness :
    missingConfig sampleSettings ∧
    generateTitle sampleSettings "some note" (fun _ _ => .ok "Raw Title") = (0, "") :=
  ⟨Or.inl (by decide),
   generateTitle_invalid_config_no_call sampleSettings "some note" _ (Or.inl (by decide))⟩

/-- C10: `generateTitle` is a total function of its oracles (it never
propagates an exception), and on every failure scenario — invalid
configuration, a draft call that raises, or a refinement call that raises — it
returns the empty string to its caller as the failure signal. -/
theorem generateTitle_failure_returns_empty (s : TitleGeneratorSettings)
    (note : String) (backend : Nat → String → Except String String)
    (h : generationFailure s note backend) :
    (generateTitle s note backend).2 = "" := by
  unfold generateTitle
  by_cases hvalid : isConfigurationValid s
  · rcases h with h | ⟨e, he⟩ | ⟨raw, e, hok, hlen, herr⟩
    · rw [hvalid] at h
      cases h
    · simp only [hvalid, Bool.not_true, Bool.false_eq_true, if_false, he]
    · simp only [hvalid, Bool.not_true, Bool.false_eq_true, if_false, hok,
        if_pos hlen, herr]
  · simp only [Bool.not_eq_true] at hvalid
    simp [hvalid]

/-- Witness for C10: invalid configuration yields the empty string. -/
theorem generateTitle_failure_returns_empty_witness :
    generationFailure sampleSettings "note" (fun _ _ => .ok "Raw") ∧
    (generateTitle sampleSettings "note" (fun _ _ => .ok "Raw")).2 = "" :=
  ⟨Or.inl (by decide),
   generateTitle_failure_returns_empty sampleSettings "note" _ (Or.inl (by decide))⟩

/-- C4: a successful catalogue query at time `t` makes `getModels` at
`t + 30min` return the same list without issuing any network request, while at
`t + 61min` it issues a new request; and an entry is fresh exactly when
`now - lastUpdated < 1 hour` and its model list is non-empty. -/
theorem getModels_cache_freshness (p : AIProvider) (st : TitleGeneratorSettings)
    (t : Int) (models : List String) (q q' : Except String (List String))
    (hne : models ≠ []) :
    getModels p (cacheModels st p models t) (t + 1800000) q =
      (models, cacheModels st p models t, false) ∧
    (getModels p (cacheModels st p models t) (t + 3660000) q').2.2 = true ∧
    (∀ (c : CachedModels) (now : Int),
      isFreshEntry c now = true ↔ now - c.lastUpdated < 3600000 ∧ c.models ≠ []) := by
  have hentry : (cacheModels st p models t).cachedModels p = some ⟨models, t, none⟩ := by
    simp [cacheModels, setCachedEntry]
  have hfresh : isFreshEntry ⟨models, t, none⟩ (t + 1800000) = true := by
    simp only [isFreshEntry, Bool.and_eq_true, decide_eq_true_eq]
    exact ⟨by omega, List.length_pos.mpr hne⟩
  have hstale : isFreshEntry ⟨models, t, none⟩ (t + 3660000) = false := by
    have hlt : ¬(t + 3660000 - 3600000 < t) := by omega
    simp [isFreshEntry, hlt]
  refine ⟨?_, ?_, ?_⟩
  · simp only [getModels, hentry, hfresh, if_true]
  · simp only [getModels, hentry, hstale, Bool.false_eq_true, if_false]
    cases q' with
    | ok ms =>
      simp only [getModelsStale]
      split <;> rfl
    | error e => rfl
  · intro c now
    simp only [isFreshEntry, Bool.and_eq_true, decide_eq_true_eq]
    constructor
    · rintro ⟨h1, h2⟩
      exact ⟨by omega, List.length_pos.mp h2⟩
    · rintro ⟨h1, h2⟩
      exact ⟨by omega, List.length_pos.mpr h2⟩

/-- Witness for C4 with the list `["a", "b"]` cached at time 1000. -/
theorem getModels_cache_freshness_witness :
    (["a", "b"] : List String) ≠ [] ∧
    getModels .openai (cacheModels sampleSettings .openai ["a", "b"] 1000)
        (1000 + 1800000) (.ok []) =
      (["a", "b"], cacheModels sampleSettings .openai ["a", "b"] 1000, false) :=
  ⟨by decide,
   (getModels_cache_freshness .openai sampleSettings 1000 ["a", "b"] (.ok [])
     (.error "down") (by decide)).1⟩

/-- C3 counterexample: with `["a", "b"]` cached, a failed `refreshModels` does
NOT return `["a", "b"]` — it returns the hardcoded OpenAI fallback list — even
though the cache entry does keep the old list and timestamp and records the
error. -/
theorem refreshModels_failure_counterexample :
    (refreshModels .openai cachedABState 2000 (.error "boom")).1 ≠ ["a", "b"] ∧
    (refreshModels .openai cachedABState 2000 (.error "boom")).1 =
      ["gpt-4o", "gpt-4o-mini", "gpt-4-turbo", "gpt-4", "gpt-3.5-turbo"] ∧
    (refreshModels .openai cachedABState 2000 (.error "boom")).2.cachedModels .openai =
      some ⟨["a", "b"], 1000, some "boom"⟩ :=
  ⟨by decide, by decide, by decide⟩

/-- C3 (amended): when the refresh query fails, `refreshModels` returns the
provider's hardcoded fallback list (not the cached one), while the cache entry
keeps the previous model list and timestamp and records the new error string;
the loading flag ends cleared. -/
theorem refreshModels_failure_keeps_cache (p : AIProvider)
    (st : TitleGeneratorSettings) (now : Int) (err : String) (c : CachedModels)
    (h : st.cachedModels p = some c) :
    (refreshModels p st now (.error err)).1 = getFallbackModels p ∧
    (refreshModels p st now (.error err)).2.cachedModels p =
      some ⟨c.models, c.lastUpdated, some err⟩ ∧
    (refreshModels p st now (.error err)).2.modelLoadingState p = false := by
  refine ⟨rfl, ?_, ?_⟩
  · simp [refreshModels, setLoading, cacheError, setCachedEntry, getErrorMessage, h]
  · simp [refreshModels, setLoading, cacheError, setCachedEntry]

/-- Witness for the amended C3 at the concrete cached state. -/
theorem refreshModels_failure_keeps_cache_witness :
    cachedABState.cachedModels .openai = some ⟨["a", "b"], 1000, none⟩ ∧
    (refreshModels .openai cachedABState 5000 (.error "down")).1 =
      getFallbackModels .openai ∧
    (refreshModels .openai cachedABState 5000 (.error "down")).2.cachedModels .openai =
      some ⟨["a", "b"], 1000, some "down"⟩ :=
  ⟨by decide,
   (refreshModels_failure_keeps_cache .openai cachedABState 5000 "down"
     ⟨["a", "b"], 1000, none⟩ (by decide)).1,
   (refreshModels_failure_keeps_cache .openai cachedABState 5000 "down"
     ⟨["a", "b"], 1000, none⟩ (by decide)).2.1⟩

theorem splitNL_no_newline (l : List Char) (h : '\n' ∉ l) : splitNL l = [l] := by
  induction l with
  | nil => rfl
  | cons c rest ih =>
    have hc : ¬(c = '\n') := fun hc => h (hc ▸ List.mem_cons_self c rest)
    have hrest : '\n' ∉ rest := fun hm => h (List.mem_cons_of_mem c hm)
    simp only [splitNL]
    rw [if_neg hc, ih hrest]

/-- C2 counterexample: for a document consisting solely of one line matched as
a duplicate, `removeDuplicatesFromContent` returns the empty document, not the
original content. -/
theorem removeDuplicates_single_line_counterexample :
    removeDuplicatesFromContent 2 "Setup Guide"
      [⟨0, 11, "Setup Guide", 1, 1, false, 0⟩] = "" ∧
    ("Setup Guide" : String) ≠ "" :=
  ⟨by decide, by decide⟩

/-- C2 (amended): `removeDuplicatesFromContent` can empty the document: for
every newline-free document and single match on line 1, it removes the only
line and returns the empty string (there is no abort-when-empty guard). -/
theorem removeDuplicates_single_line_empties (k : Nat) (content : String)
    (m : TitleMatch) (hnl : '\n' ∉ content.data) (hline : m.lineNumber = 1) :
    removeDuplicatesFromContent k content [m] = "" := by
  have hsplice : spliceMatch [content.data] m = [] := by
    simp [spliceMatch, hline]
  simp only [removeDuplicatesFromContent, List.length_cons, List.length_nil,
    Nat.zero_add, Nat.add_eq_zero, if_neg]
  rw [if_neg (by simp), splitNL_no_newline content.data hnl]
  show (⟨collapseNewlineRuns k
    ((joinNL ((sortDescByStart [m]).foldl spliceMatch [content.data])).dropWhile
      (fun c => c = '\n'))⟩ : String) = ""
  rw [show sortDescByStart [m] = [m] from rfl]
  simp only [List.foldl_cons, List.foldl_nil, hsplice]
  rfl

/-- Witness for the amended C2 on a concrete one-line document. -/
theorem removeDuplicates_single_line_empties_witness :
    ('\n' ∉ ("Setup Guide" : String).data) ∧
    removeDuplicatesFromContent 3 "Setup Guide"
      [⟨0, 11, "Setup Guide", 1, 1, false, 0⟩] = "" :=
  ⟨by decide,
   removeDuplicates_single_line_empties 3 "Setup Guide" _ (by decide) rfl⟩

theorem levMatrixF_zero_left (s t : List Char) (fuel j : Nat) :
    levMatrixF s t fuel 0 j = j := by
  cases fuel <;> rfl

theorem levMatrixF_zero_right (s t : List Char) (fuel i : Nat) :
    levMatrixF s t fuel i 0 = i := by
  cases fuel <;> cases i <;> rfl

theorem levMatrixF_self_diag (s : List Char) :
    ∀ (fuel i : Nat), i + i ≤ fuel → levMatrixF s s fuel i i = 0 := by
  intro fuel
  induction fuel with
  | zero =>
    intro i hi
    have hz : i = 0 := by omega
    subst hz
    rfl
  | succ fuel ih =>
    intro i hi
    cases i with
    | zero => rfl
    | succ i' =>
      show min (min (levMatrixF s s fuel i' (i' + 1) + 1)
          (levMatrixF s s fuel (i' + 1) i' + 1))
        (levMatrixF s s fuel i' i' +
          if s.getD i' ' ' = s.getD i' ' ' then 0 else 1) = 0
      rw [if_pos rfl, ih i' (by omega)]
      simp

/-- A string has Levenshtein distance 0 to itself (needed because the source
returns similarity 1 through the early equality branch). -/
theorem levenshteinDistance_self (a : String) : levenshteinDistance a a = 0 :=
  levMatrixF_self_diag a.data (a.data.length + a.data.length) a.data.length le_rfl

theorem levenshteinDistance_left_empty (a b : String)
    (h : a.data.length = 0) : levenshteinDistance a b = b.data.length := by
  unfold levenshteinDistance
  rw [h]
  exact levMatrixF_zero_left a.data b.data (0 + b.data.length) b.data.length

theorem levenshteinDistance_right_empty (a b : String)
    (h : b.data.length = 0) : levenshteinDistance a b = a.data.length := by
  unfold levenshteinDistance
  rw [h]
  exact levMatrixF_zero_right a.data b.data (a.data.length + 0) a.data.length

/-- C7 counterexample: the claim also demands that a pair with an empty
normalized string scores 0, but two strings that both normalize to empty are
equal after normalization and score 1. -/
theorem calculateTitleSimilarity_both_empty_counterexample :
    normalizeTitleForComparison "" = "" ∧
    normalizeTitleForComparison "!?" = "" ∧
    calculateTitleSimilarity "" "!?" = 1 ∧ (1 : ℚ) ≠ 0 :=
  ⟨by decide, by decide, by decide, by decide⟩

/-- C7 (amended): the similarity always equals
`1 - lev(norm a, norm b) / max(len(norm a), len(norm b))` (with the `ℚ`
convention `x / 0 = 0`, which only arises when both normalized strings are
empty); identical normalized strings score exactly 1; a pair in which exactly
one normalized string is empty scores 0 (a both-empty pair is identical and
scores 1).  In particular the similarity of "Setup Guide" and "# Setup Guide"
is 1 (see the witness). -/
theorem calculateTitleSimilarity_spec (a b : String) :
    calculateTitleSimilarity a b =
      1 - (levenshteinDistance (normalizeTitleForComparison a)
            (normalizeTitleForComparison b) : ℚ) /
        ((max (normalizeTitleForComparison a).data.length
            (normalizeTitleForComparison b).data.length : Nat) : ℚ) ∧
    (normalizeTitleForComparison a = normalizeTitleForComparison b →
      calculateTitleSimilarity a b = 1) ∧
    ((normalizeTitleForComparison a).data.length = 0 ∧
        (normalizeTitleForComparison b).data.length ≠ 0 →
      calculateTitleSimilarity a b = 0) ∧
    ((normalizeTitleForComparison b).data.length = 0 ∧
        (normalizeTitleForComparison a).data.length ≠ 0 →
      calculateTitleSimilarity a b = 0) := by
  set na := normalizeTitleForComparison a with hna
  set nb := normalizeTitleForComparison b with hnb
  refine ⟨?_, ?_, ?_, ?_⟩
  · by_cases heq : na = nb
    · rw [show calculateTitleSimilarity a b = 1 by
        unfold calculateTitleSimilarity
        rw [← hna, ← hnb, if_pos heq]]
      rw [heq, levenshteinDistance_self]
      simp
    · by_cases hza : na.data.length = 0
      · have hzb : nb.data.length ≠ 0 := by
          intro hzb
          apply heq
          have ha : na.data = [] := List.length_eq_zero.mp hza
          have hb : nb.data = [] := List.length_eq_zero.mp hzb
          exact String.ext (ha.trans hb.symm)
        rw [show calculateTitleSimilarity a b = 0 by
          unfold calculateTitleSimilarity
          rw [← hna, ← hnb, if_neg heq, if_pos (Or.inl hza)]]
        rw [levenshteinDistance_left_empty na nb hza, hza]
        rw [Nat.zero_max]
        rw [div_self (by exact_mod_cast hzb), sub_self]
      · by_cases hzb : nb.data.length = 0
        · rw [show calculateTitleSimilarity a b = 0 by
            unfold calculateTitleSimilarity
            rw [← hna, ← hnb, if_neg heq, if_pos (Or.inr hzb)]]
          rw [levenshteinDistance_right_empty na nb hzb, hzb]
          rw [Nat.max_zero]
          rw [div_self (by exact_mod_cast hza), sub_self]
        · unfold calculateTitleSimilarity
          rw [← hna, ← hnb, if_neg heq, if_neg (by tauto)]
  · intro heq
    unfold calculateTitleSimilarity
    rw [← hna, ← hnb, if_pos heq]
  · rintro ⟨h1, h2⟩
    have heq : na ≠ nb := by
      intro h
      exact h2 (h ▸ h1)
    unfold calculateTitleSimilarity
    rw [← hna, ← hnb, if_neg heq, if_pos (Or.inl h1)]
  · rintro ⟨h1, h2⟩
    have heq : na ≠ nb := by
      intro h
      exact h2 (h ▸ h1)
    unfold calculateTitleSimilarity
    rw [← hna, ← hnb, if_neg heq, if_pos (Or.inr h1)]

/-- Witness for the amended C7: the header-stripped pair scores exactly 1, and
a pair with exactly one empty normalization scores 0. -/
theorem calculateTitleSimilarity_spec_witness :
    (normalizeTitleForComparison "Setup Guide" =
        normalizeTitleForComparison "# Setup Guide" ∧
      calculateTitleSimilarity "Setup Guide" "# Setup Guide" = 1) ∧
    ((normalizeTitleForComparison "").data.length = 0 ∧
      (normalizeTitleForComparison "x").data.length ≠ 0 ∧
      calculateTitleSimilarity "" "x" = 0) :=
  ⟨⟨by decide, (calculateTitleSimilarity_spec "Setup Guide" "# Setup Guide").2.1 (by decide)⟩,
   ⟨by decide, by decide,
    (calculateTitleSimilarity_spec "" "x").2.2.1 ⟨by decide, by decide⟩⟩⟩

theorem dropWhile_head_false {α : Type} {p : α → Bool} :
    ∀ {l : List α} {c : α} {cs : List α}, l.dropWhile p = c :: cs → p c = false := by
  intro l
  induction l with
  | nil => intro c cs h; cases h
  | cons a rest ih =>
    intro c cs h
    rw [List.dropWhile_cons] at h
    by_cases ha : p a = true
    · rw [if_pos ha] at h
      exact ih h
    · rw [if_neg ha] at h
      injection h with h1 _
      exact h1 ▸ eq_false_of_ne_true ha

theorem dropWhile_head?_false {α : Type} {p : α → Bool} {l : List α} {c : α}
    (h : (l.dropWhile p).head? = some c) : p c = false := by
  cases hd : l.dropWhile p with
  | nil => rw [hd] at h; cases h
  | cons a cs =>
    rw [hd] at h
    injection h with h1
    exact h1 ▸ dropWhile_head_false hd

theorem dropWhile_eq_self_of_head {α : Type} {p : α → Bool} {l : List α}
    (h : ∀ c, l.head? = some c → p c = false) : l.dropWhile p = l := by
  cases l with
  | nil => rfl
  | cons a rest =>
    rw [List.dropWhile_cons, if_neg (by simp [h a rfl])]

theorem chain'_dropWhile {α : Type} {R : α → α → Prop} {p : α → Bool} {l : List α}
    (h : List.Chain' R l) : List.Chain' R (l.dropWhile p) := by
  rw [← List.takeWhile_append_dropWhile p l] at h
  exact (List.chain'_append.mp h).2.1

theorem chain'_ws_reverse {l : List Char}
    (h : List.Chain' (fun a b => jsWS a = false ∨ jsWS b = false) l) :
    List.Chain' (fun a b => jsWS a = false ∨ jsWS b = false) l.reverse :=
  List.chain'_reverse.mpr (List.Chain'.imp (fun _ _ hab => hab.symm) h)

theorem collapseWSAux_mem : ∀ {b : Bool} {l : List Char} {c : Char},
    c ∈ collapseWSAux b l → c = ' ' ∨ c ∈ l := by
  intro b l
  induction l generalizing b with
  | nil => intro c hc; cases hc
  | cons a rest ih =>
    intro c hc
    unfold collapseWSAux at hc
    by_cases ha : jsWS a = true
    · rw [if_pos ha] at hc
      cases b with
      | true =>
        rw [if_pos rfl] at hc
        rcases ih hc with h | h
        · exact Or.inl h
        · exact Or.inr (List.mem_cons_of_mem a h)
      | false =>
        rw [if_neg (by simp)] at hc
        rcases List.mem_cons.mp hc with h | h
        · exact Or.inl h
        · rcases ih h with h2 | h2
          · exact Or.inl h2
          · exact Or.inr (List.mem_cons_of_mem a h2)
    · rw [if_neg ha] at hc
      rcases List.mem_cons.mp hc with h | h
      · exact Or.inr (h ▸ List.mem_cons_self a rest)
      · rcases ih h with h2 | h2
        · exact Or.inl h2
        · exact Or.inr (List.mem_cons_of_mem a h2)

theorem collapseWSAux_ws : ∀ {b : Bool} {l : List Char} {c : Char},
    c ∈ collapseWSAux b l → jsWS c = true → c = ' ' := by
  intro b l
  induction l generalizing b with
  | nil => intro c hc; cases hc
  | cons a rest ih =>
    intro c hc hwsc
    unfold collapseWSAux at hc
    by_cases ha : jsWS a = true
    · rw [if_pos ha] at hc
      cases b with
      | true =>
        rw [if_pos rfl] at hc
        exact ih hc hwsc
      | false =>
        rw [if_neg (by simp)] at hc
        rcases List.mem_cons.mp hc with h | h
        · exact h
        · exact ih h hwsc
    · rw [if_neg ha] at hc
      rcases List.mem_cons.mp hc with h | h
      · rw [h] at hwsc
        exact absurd hwsc ha
      · exact ih h hwsc

theorem collapseWSAux_true_head : ∀ {l : List Char} {c : Char} {cs : List Char},
    collapseWSAux true l = c :: cs → jsWS c = false := by
  intro l
  induction l with
  | nil => intro c cs h; cases h
  | cons a rest ih =>
    intro c cs h
    unfold collapseWSAux at h
    by_cases ha : jsWS a = true
    · rw [if_pos ha, if_pos rfl] at h
      exact ih h
    · rw [if_neg ha] at h
      injection h with h1 _
      exact h1 ▸ eq_false_of_ne_true ha

theorem collapseWSAux_chain : ∀ (b : Bool) (l : List Char),
    List.Chain' (fun x y => jsWS x = false ∨ jsWS y = false) (collapseWSAux b l) := by
  intro b l
  induction l generalizing b with
  | nil => exact List.chain'_nil
  | cons a rest ih =>
    unfold collapseWSAux
    by_cases ha : jsWS a = true
    · rw [if_pos ha]
      cases b with
      | true =>
        rw [if_pos rfl]
        exact ih true
      | false =>
        rw [if_neg (by simp)]
        refine List.chain'_cons'.mpr ⟨?_, ih true⟩
        intro y hy
        right
        cases hcl : collapseWSAux true rest with
        | nil => simp [hcl] at hy
        | cons z zs =>
          rw [hcl] at hy
          have hyz : z = y := Option.some.inj (Option.mem_def.mp hy)
          exact hyz ▸ collapseWSAux_true_head hcl
    · rw [if_neg ha]
      exact List.chain'_cons'.mpr
        ⟨fun y _ => Or.inl (eq_false_of_ne_true ha), ih false⟩

theorem collapseWSAux_flag {l : List Char}
    (h : ∀ c, l.head? = some c → jsWS c = false) :
    collapseWSAux true l = collapseWSAux false l := by
  cases l with
  | nil => rfl
  | cons a rest =>
    have ha : jsWS a = false := h a rfl
    unfold collapseWSAux
    simp only [if_neg (show ¬(jsWS a = true) by simp [ha])]

theorem collapseWS_fix : ∀ {l : List Char},
    (∀ c ∈ l, jsWS c = true → c = ' ') →
    List.Chain' (fun x y => jsWS x = false ∨ jsWS y = false) l →
    collapseWS l = l := by
  intro l
  induction l with
  | nil => intro _ _; rfl
  | cons a rest ih =>
    intro hws hch
    have hch' := List.chain'_cons'.mp hch
    show collapseWSAux false (a :: rest) = a :: rest
    unfold collapseWSAux
    by_cases ha : jsWS a = true
    · rw [if_pos ha, if_neg (by simp)]
      have ha' : a = ' ' := hws a (List.mem_cons_self a rest) ha
      have hhead : ∀ c, rest.head? = some c → jsWS c = false := by
        intro c hc
        rcases hch'.1 c (Option.mem_def.mpr hc) with h | h
        · rw [h] at ha
          exact Bool.noConfusion ha
        · exact h
      have ihr : collapseWSAux false rest = rest :=
        ih (fun c hc hwsc => hws c (List.mem_cons_of_mem a hc) hwsc) hch'.2
      rw [collapseWSAux_flag hhead, ihr, ha']
    · have ihr : collapseWSAux false rest = rest :=
        ih (fun c hc hwsc => hws c (List.mem_cons_of_mem a hc) hwsc) hch'.2
      rw [if_neg ha, ihr]

theorem mem_of_trimLeft {l : List Char} {c : Char} (h : c ∈ trimLeft l) : c ∈ l :=
  List.Sublist.mem h (List.dropWhile_sublist _)

theorem mem_of_trimRight {l : List Char} {c : Char} (h : c ∈ trimRight l) : c ∈ l := by
  unfold trimRight at h
  rw [List.mem_reverse] at h
  exact List.mem_reverse.mp (List.Sublist.mem h (List.dropWhile_sublist _))

theorem mem_of_jsTrim {l : List Char} {c : Char} (h : c ∈ jsTrim l) : c ∈ l :=
  mem_of_trimLeft (mem_of_trimRight h)

theorem mem_of_stripDotsSpaces {l : List Char} {c : Char}
    (h : c ∈ stripDotsSpaces l) : c ∈ l := by
  unfold stripDotsSpaces at h
  rw [List.mem_reverse] at h
  have h2 := List.Sublist.mem h (List.dropWhile_sublist _)
  rw [List.mem_reverse] at h2
  exact List.Sublist.mem h2 (List.dropWhile_sublist _)

theorem chain'_jsTrim {l : List Char}
    (h : List.Chain' (fun a b => jsWS a = false ∨ jsWS b = false) l) :
    List.Chain' (fun a b => jsWS a = false ∨ jsWS b = false) (jsTrim l) :=
  chain'_ws_reverse (chain'_dropWhile (chain'_ws_reverse (chain'_dropWhile h)))

theorem chain'_stripDotsSpaces {l : List Char}
    (h : List.Chain' (fun a b => jsWS a = false ∨ jsWS b = false) l) :
    List.Chain' (fun a b => jsWS a = false ∨ jsWS b = false) (stripDotsSpaces l) :=
  chain'_ws_reverse (chain'_dropWhile (chain'_ws_reverse (chain'_dropWhile h)))

theorem stripDotsSpaces_getLast? {l : List Char} {c : Char}
    (h : (stripDotsSpaces l).getLast? = some c) : spaceDot c = false := by
  unfold stripDotsSpaces at h
  rw [List.getLast?_reverse] at h
  exact dropWhile_head?_false h

theorem stripDotsSpaces_head? {l : List Char} {c : Char}
    (h : (stripDotsSpaces l).head? = some c) : spaceDot c = false := by
  unfold stripDotsSpaces at h
  rw [List.head?_reverse] at h
  have happ := List.takeWhile_append_dropWhile spaceDot (l.dropWhile spaceDot).reverse
  have hlast : (l.dropWhile spaceDot).reverse.getLast? = some c := by
    rw [← happ, List.getLast?_append, h]
    rfl
  rw [List.getLast?_reverse] at hlast
  exact dropWhile_head?_false hlast

/-- The output of `sanitizeChars` is in sanitized normal form: no forbidden
characters, every whitespace character is a single `' '`, no two adjacent
whitespace characters, and neither end is a space or a dot. -/
theorem sanitizeChars_props (l : List Char) :
    (∀ c ∈ sanitizeChars l, forbiddenChar c = false) ∧
    (∀ c ∈ sanitizeChars l, jsWS c = true → c = ' ') ∧
    List.Chain' (fun a b => jsWS a = false ∨ jsWS b = false) (sanitizeChars l) ∧
    (∀ c, (sanitizeChars l).head? = some c → spaceDot c = false) ∧
    (∀ c, (sanitizeChars l).getLast? = some c → spaceDot c = false) := by
  refine ⟨?_, ?_, ?_, ?_, ?_⟩
  · intro c hc
    have h2 : c ∈ collapseWS (l.filter (fun c => !forbiddenChar c)) :=
      mem_of_jsTrim (mem_of_stripDotsSpaces hc)
    rcases collapseWSAux_mem h2 with h | h
    · rw [h]
      rfl
    · have := (List.mem_filter.mp h).2
      simpa using this
  · intro c hc
    exact collapseWSAux_ws (mem_of_jsTrim (mem_of_stripDotsSpaces hc))
  · exact chain'_stripDotsSpaces (chain'_jsTrim (collapseWSAux_chain false _))
  · intro c hc
    exact stripDotsSpaces_head? hc
  · intro c hc
    exact stripDotsSpaces_getLast? hc

/-- A list in sanitized normal form is a fixed point of `sanitizeChars`. -/
theorem sanitizeChars_fix {r : List Char}
    (hfb : ∀ c ∈ r, forbiddenChar c = false)
    (hws : ∀ c ∈ r, jsWS c = true → c = ' ')
    (hch : List.Chain' (fun a b => jsWS a = false ∨ jsWS b = false) r)
    (hhead : ∀ c, r.head? = some c → spaceDot c = false)
    (hlast : ∀ c, r.getLast? = some c → spaceDot c = false) :
    sanitizeChars r = r := by
  have hmemhead : ∀ c, r.head? = some c → c ∈ r := by
    intro c hc
    cases r with
    | nil => cases hc
    | cons a t =>
      have : a = c := Option.some.inj hc
      exact this ▸ List.mem_cons_self a t
  have hmemlast : ∀ c, r.getLast? = some c → c ∈ r := by
    intro c hc
    rw [← List.head?_reverse] at hc
    cases hr : r.reverse with
    | nil => rw [hr] at hc; cases hc
    | cons a t =>
      rw [hr] at hc
      have ha : a = c := Option.some.inj hc
      have : a ∈ r.reverse := hr ▸ List.mem_cons_self a t
      exact ha ▸ List.mem_reverse.mp this
  have hheadws : ∀ c, r.head? = some c → jsWS c = false := by
    intro c hc
    by_cases h : jsWS c = true
    · have hsp := hhead c hc
      have : c = ' ' := hws c (hmemhead c hc) h
      rw [this] at hsp
      exact Bool.noConfusion hsp
    · exact eq_false_of_ne_true h
  have hlastws : ∀ c, r.getLast? = some c → jsWS c = false := by
    intro c hc
    by_cases h : jsWS c = true
    · have hsp := hlast c hc
      have : c = ' ' := hws c (hmemlast c hc) h
      rw [this] at hsp
      exact Bool.noConfusion hsp
    · exact eq_false_of_ne_true h
  have h1 : r.filter (fun c => !forbiddenChar c) = r :=
    List.filter_eq_self.mpr (fun a ha => by simp [hfb a ha])
  have h2 : collapseWS r = r := collapseWS_fix hws hch
  have h3 : trimLeft r = r := dropWhile_eq_self_of_head hheadws
  have h4 : trimRight r = r := by
    unfold trimRight
    rw [dropWhile_eq_self_of_head
        (fun c hc => hlastws c (by rwa [List.head?_reverse] at hc)),
      List.reverse_reverse]
  have h5 : jsTrim r = r := by
    unfold jsTrim
    rw [h3, h4]
  have h6 : stripDotsSpaces r = r := by
    unfold stripDotsSpaces
    rw [dropWhile_eq_self_of_head hhead,
      dropWhile_eq_self_of_head
        (fun c hc => hlast c (by rwa [List.head?_reverse] at hc)),
      List.reverse_reverse]
  show stripDotsSpaces (jsTrim (collapseWS (r.filter (fun c => !forbiddenChar c)))) = r
  rw [h1, h2, h5, h6]

/-- C8: `sanitizeFilename` is idempotent:
`sanitizeFilename (sanitizeFilename x) = sanitizeFilename x` for every string. -/
theorem sanitizeFilename_idempotent (x : String) :
    sanitizeFilename (sanitizeFilename x) = sanitizeFilename x := by
  obtain ⟨hfb, hws, hch, hhead, hlast⟩ := sanitizeChars_props x.data
  have hfix : sanitizeChars (sanitizeChars x.data) = sanitizeChars x.data :=
    sanitizeChars_fix hfb hws hch hhead hlast
  by_cases h : (sanitizeChars x.data).length > 0
  · have hx : sanitizeFilename x = ⟨sanitizeChars x.data⟩ := by
      unfold sanitizeFilename
      exact if_pos h
    rw [hx]
    show (if (sanitizeChars (sanitizeChars x.data)).length > 0
      then (⟨sanitizeChars (sanitizeChars x.data)⟩ : String)
      else "Untitled") = (⟨sanitizeChars x.data⟩ : String)
    rw [hfix, if_pos h]
  · have hx : sanitizeFilename x = "Untitled" := by
      unfold sanitizeFilename
      exact if_neg h
    rw [hx]
    decide

end TitleGen
